import Mathlib

/-!
Verification of the SAT bulletin monitor pipeline (`sat-monitor/lambda_function.py`)
against its specification. The Python source is shallowly embedded: every network,
store, filesystem and clock effect is supplied by an explicit oracle, and the
functions below mirror the control flow of the source line by line.
-/

set_option maxRecDepth 4000

namespace SatMonitor

/-! ### Byte-level helpers

`str.encode()` in the source produces the UTF-8 bytes of a string; we model
bytes as `Nat` values below 256. -/

/-- UTF-8 encoding of a single Unicode code point, as a list of byte values. -/
def utf8Char (c : Nat) : List Nat :=
  if c < 0x80 then [c]
  else if c < 0x800 then [0xC0 + c / 64, 0x80 + c % 64]
  else if c < 0x10000 then [0xE0 + c / 4096, 0x80 + (c / 64) % 64, 0x80 + c % 64]
  else [0xF0 + c / 262144, 0x80 + (c / 4096) % 64, 0x80 + (c / 64) % 64, 0x80 + c % 64]

/-- UTF-8 bytes of a string, modelling Python `str.encode()`. -/
def utf8Encode (s : String) : List Nat :=
  s.data.flatMap (fun c => utf8Char c.toNat)

/-! ### MD5 (hashlib.md5)

The dedup store keys are `processed/{md5(url)}.txt`; we embed MD5 (RFC 1321)
over byte lists so the fingerprint is the real one. 32-bit words are `Nat`
values reduced mod 2^32. -/

/-- The 2^32 modulus for 32-bit MD5 arithmetic. -/
def w32 : Nat := 4294967296

/-- 32-bit left rotation. -/
def rotl32 (x s : Nat) : Nat :=
  ((x <<< s) % w32) ||| (x >>> (32 - s))

/-- Bitwise complement within 32 bits. -/
def not32 (x : Nat) : Nat := x ^^^ (w32 - 1)

/-- The MD5 sine-derived round constants K[0..63]. -/
def md5K : List Nat :=
  [0xd76aa478, 0xe8c7b756, 0x242070db, 0xc1bdceee,
   0xf57c0faf, 0x4787c62a, 0xa8304613, 0xfd469501,
   0x698098d8, 0x8b44f7af, 0xffff5bb1, 0x895cd7be,
   0x6b901122, 0xfd987193, 0xa679438e, 0x49b40821,
   0xf61e2562, 0xc040b340, 0x265e5a51, 0xe9b6c7aa,
   0xd62f105d, 0x02441453, 0xd8a1e681, 0xe7d3fbc8,
   0x21e1cde6, 0xc33707d6, 0xf4d50d87, 0x455a14ed,
   0xa9e3e905, 0xfcefa3f8, 0x676f02d9, 0x8d2a4c8a,
   0xfffa3942, 0x8771f681, 0x6d9d6122, 0xfde5380c,
   0xa4beea44, 0x4bdecfa9, 0xf6bb4b60, 0xbebfbc70,
   0x289b7ec6, 0xeaa127fa, 0xd4ef3085, 0x04881d05,
   0xd9d4d039, 0xe6db99e5, 0x1fa27cf8, 0xc4ac5665,
   0xf4292244, 0x432aff97, 0xab9423a7, 0xfc93a039,
   0x655b59c3, 0x8f0ccc92, 0xffeff47d, 0x85845dd1,
   0x6fa87e4f, 0xfe2ce6e0, 0xa3014314, 0x4e0811a1,
   0xf7537e82, 0xbd3af235, 0x2ad7d2bb, 0xeb86d391]

/-- The MD5 per-round left-rotation amounts s[0..63]. -/
def md5S : List Nat :=
  [7, 12, 17, 22, 7, 12, 17, 22, 7, 12, 17, 22, 7, 12, 17, 22,
   5, 9, 14, 20, 5, 9, 14, 20, 5, 9, 14, 20, 5, 9, 14, 20,
   4, 11, 16, 23, 4, 11, 16, 23, 4, 11, 16, 23, 4, 11, 16, 23,
   6, 10, 15, 21, 6, 10, 15, 21, 6, 10, 15, 21, 6, 10, 15, 21]

/-- Little-endian 32-bit word assembled from four bytes of a chunk. -/
def leWord (chunk : List Nat) (g : Nat) : Nat :=
  chunk.getD (4 * g) 0 + (chunk.getD (4 * g + 1) 0) * 256 +
    (chunk.getD (4 * g + 2) 0) * 65536 + (chunk.getD (4 * g + 3) 0) * 16777216

/-- The nonlinear function and message index of MD5 round i for state (b, c, d). -/
def md5F (i b c d : Nat) : Nat × Nat :=
  if i < 16 then ((b &&& c) ||| (not32 b &&& d), i)
  else if i < 32 then ((d &&& b) ||| (not32 d &&& c), (5 * i + 1) % 16)
  else if i < 48 then (b ^^^ c ^^^ d, (3 * i + 5) % 16)
  else (c ^^^ (b ||| not32 d), (7 * i) % 16)

/-- One MD5 round applied to the running state (a, b, c, d). -/
def md5Round (chunk : List Nat) (st : Nat × Nat × Nat × Nat) (i : Nat) :
    Nat × Nat × Nat × Nat :=
  let a := st.1
  let b := st.2.1
  let c := st.2.2.1
  let d := st.2.2.2
  let fg := md5F i b c d
  let f := (fg.1 + a + md5K.getD i 0 + leWord chunk fg.2) % w32
  (d, (b + rotl32 f (md5S.getD i 0)) % w32, b, c)

/-- Processing of one 64-byte chunk: 64 rounds then state addition mod 2^32. -/
def md5Chunk (st : Nat × Nat × Nat × Nat) (chunk : List Nat) :
    Nat × Nat × Nat × Nat :=
  let r := (List.range 64).foldl (md5Round chunk) st
  ((st.1 + r.1) % w32, (st.2.1 + r.2.1) % w32,
   (st.2.2.1 + r.2.2.1) % w32, (st.2.2.2 + r.2.2.2) % w32)

/-- Splitting of a byte list into 64-byte chunks; the fuel argument only
bounds the recursion and any value at least the list length is exact. -/
def chunks64Go : Nat → List Nat → List (List Nat)
  | 0, _ => []
  | _, [] => []
  | fuel + 1, l => l.take 64 :: chunks64Go fuel (l.drop 64)

/-- Splitting of a byte list into 64-byte chunks. -/
def chunks64 (l : List Nat) : List (List Nat) :=
  chunks64Go l.length l

/-- MD5 padding: a 0x80 byte, zeros to 56 mod 64, then the 64-bit LE bit length. -/
def md5Pad (msg : List Nat) : List Nat :=
  let len := msg.length
  let zeros := (119 - len % 64) % 64
  let bitLen := (8 * len) % (2 ^ 64)
  msg ++ [0x80] ++ List.replicate zeros 0 ++
    (List.range 8).map (fun i => (bitLen >>> (8 * i)) % 256)

/-- Little-endian bytes of a 32-bit word. -/
def leBytes (x : Nat) : List Nat :=
  [x % 256, (x >>> 8) % 256, (x >>> 16) % 256, (x >>> 24) % 256]

/-- Lowercase hex digit for a value below 16. -/
def hexDigit (n : Nat) : Char :=
  "0123456789abcdef".data.getD n '0'

/-- Lowercase two-digit hex of one byte. -/
def hexByte (b : Nat) : List Char :=
  [hexDigit (b / 16), hexDigit (b % 16)]

/-- MD5 digest of a byte list as a lowercase hex string (hashlib hexdigest). -/
def md5Hex (msg : List Nat) : String :=
  let init : Nat × Nat × Nat × Nat :=
    (0x67452301, 0xefcdab89, 0x98badcfe, 0x10325476)
  let st := (chunks64 (md5Pad msg)).foldl md5Chunk init
  ⟨((leBytes st.1 ++ leBytes st.2.1 ++ leBytes st.2.2.1 ++ leBytes st.2.2.2).flatMap
      hexByte)⟩

/-- MD5 hexdigest of the UTF-8 bytes of a string:
`hashlib.md5(s.encode()).hexdigest()`. -/
def md5HexStr (s : String) : String := md5Hex (utf8Encode s)

/-! ### String helpers

Python `str.lower()` and the `in` substring test, as used by the keyword
matcher. The lowercase model handles the ASCII letters appearing in the
configured keywords. -/

/-- Lowercase model of Python `str.lower()` (ASCII case folding). -/
def pyLower (s : String) : String := ⟨s.data.map Char.toLower⟩

/-- Suffix test on strings, modelling `str.endswith`. -/
def strEndsWith (s post : String) : Bool := post.data.isSuffixOf s.data

/-- Prefix test on strings, modelling `str.startswith`. -/
def strStartsWith (s pre : String) : Bool := pre.data.isPrefixOf s.data

/-- Boolean substring test: `pat in text` on Python strings. -/
def strContainsSub (text pat : String) : Bool :=
  text.data.tails.any (fun t => pat.data.isPrefixOf t)

/-! ### URL helpers

Models of `urllib.parse.urljoin`, `urlparse(...).path` and
`os.path.basename` for the http URLs this pipeline handles (no query or
fragment components, which cannot end in ".pdf" anyway). -/

/-- A URL split as scheme, host, path. -/
structure UrlParts where
  scheme : String
  host : String
  path : String
deriving DecidableEq, Repr

/-- Splitting of a character list at the first occurrence of "://": the part
before it and the part after it. -/
def findScheme : List Char → Option (List Char × List Char)
  | ':' :: '/' :: '/' :: tail => some ([], tail)
  | c :: rest =>
    match findScheme rest with
    | none => none
    | some (pre, tail) => some (c :: pre, tail)
  | [] => none

/-- Parsing of an absolute http-style URL into scheme, host and path. -/
def parseUrl (u : String) : Option UrlParts :=
  match findScheme u.data with
  | none => none
  | some (scheme, rest) =>
    let host : String := ⟨rest.takeWhile (· ≠ '/')⟩
    let path : String := ⟨rest.dropWhile (· ≠ '/')⟩
    some ⟨⟨scheme⟩, host, path⟩

/-- Dot-segment resolution over path segments (RFC 3986 remove_dot_segments). -/
def resolveDots : List String → List String → List String
  | acc, [] => acc.reverse
  | acc, "." :: rest => resolveDots acc rest
  | acc, ".." :: rest => resolveDots (acc.drop 1) rest
  | acc, s :: rest => resolveDots (s :: acc) rest

/-- Splitting of a character list on a separator character. -/
def splitChar (c : Char) : List Char → List (List Char)
  | [] => [[]]
  | x :: xs =>
    if x = c then [] :: splitChar c xs
    else
      match splitChar c xs with
      | [] => [[x]]
      | h :: t => (x :: h) :: t

/-- Normalisation of an absolute path: leading slash, dot segments resolved. -/
def normPath (p : String) : String :=
  let segs := ((splitChar '/' p.data).map (fun l => (⟨l⟩ : String))).drop 1
  "/" ++ String.intercalate "/" (resolveDots [] segs)

/-- Directory part of a path, up to and including the last slash. -/
def dirOf (p : String) : String :=
  let r := p.data.reverse.dropWhile (· ≠ '/')
  if r = [] then "/" else ⟨r.reverse⟩

/-- Model of `urllib.parse.urljoin(base, href)` for the href shapes this
scraper meets: full absolute URLs pass through, scheme-relative and
root-relative hrefs replace host resp. path, other hrefs resolve against
the directory of the base path. -/
def urljoin (base href : String) : String :=
  if (parseUrl href).isSome then href
  else
    match parseUrl base with
    | none => href
    | some b =>
      if strStartsWith href "//" then b.scheme ++ ":" ++ href
      else if strStartsWith href "/" then b.scheme ++ "://" ++ b.host ++ normPath href
      else b.scheme ++ "://" ++ b.host ++ normPath (dirOf b.path ++ href)

/-- Path component of a URL: `urlparse(url).path`. -/
def urlPath (url : String) : String :=
  match parseUrl url with
  | some b => b.path
  | none => url

/-- Model of `os.path.basename`: the part after the last slash. -/
def basename (p : String) : String :=
  ⟨(p.data.reverse.takeWhile (· ≠ '/')).reverse⟩

/-! ### Module-level configuration of the source -/

/-- The fixed source page URL. -/
def SAT_URL : String :=
  "http://omawww.sat.gob.mx/sala_prensa/boletin_tecnico/Paginas/default.aspx"

/-- The configured keyword list, in configuration order. -/
def KEYWORDS : List String :=
  ["CFDI 4.0", "Anexo 20", "contabilidad electrónica", "e.firma"]

/-- Maximum number of request attempts. -/
def MAX_RETRIES : Nat := 3

/-- Fixed delay in seconds between consecutive request attempts. -/
def RETRY_DELAY : Nat := 2

/-! ### Errors

One inductive covers the exceptions the source distinguishes:
SATMonitorError variants, the boto ClientError that
`file_already_processed` can re-raise, and other unexpected exceptions. -/

/-- Exceptions of the embedded program. -/
inductive PipelineError where
  | fetch (url : String) (lastError : String) (attempts : Nat)
  | scrape (msg : String)
  | config (missing : List String)
  | notification (msg : String)
  | clientError (code : String)
  | other (msg : String)
deriving DecidableEq, Repr

/-! ### Retrying HTTP fetcher (`get_with_retries`)

The network is an oracle giving the outcome of each attempt; the result
records the returned value, the number of attempts made, and the sleeps
performed between attempts. A run of the loop that makes zero iterations
(only possible for `maxRetries = 0`) falls off the end and returns `none`,
exactly as the Python function returns `None` there. -/

/-- Outcome of a single HTTP attempt: a 2xx response with its body bytes, or
a RequestException (timeout, connection error, raise_for_status). -/
inductive AttemptOutcome where
  | success (content : List Nat)
  | failure (err : String)
deriving DecidableEq, Repr

instance {ε α : Type} [DecidableEq ε] [DecidableEq α] :
    DecidableEq (Except ε α) := fun a b =>
  match a, b with
  | .ok x, .ok y =>
    if h : x = y then .isTrue (by rw [h])
    else .isFalse (by intro hh; injection hh; contradiction)
  | .error x, .error y =>
    if h : x = y then .isTrue (by rw [h])
    else .isFalse (by intro hh; injection hh; contradiction)
  | .ok _, .error _ => .isFalse (by intro hh; injection hh)
  | .error _, .ok _ => .isFalse (by intro hh; injection hh)

/-- Result of the retry loop: returned value or raised error, attempts made,
and the list of sleep durations between attempts. -/
structure RetryResult where
  result : Except PipelineError (Option (List Nat))
  attempts : Nat
  sleeps : List Nat
deriving DecidableEq, Repr

/-- The retry loop of `get_with_retries`, one constructor step per remaining
loop iteration (`fuel` = iterations left, `attempt` = current index). -/
def retryGo (url : String) (oracle : Nat → AttemptOutcome) (maxRetries : Nat) :
    Nat → Nat → RetryResult
  | _, 0 => ⟨.ok none, 0, []⟩
  | attempt, fuel + 1 =>
    match oracle attempt with
    | .success r => ⟨.ok (some r), 1, []⟩
    | .failure e =>
      if attempt = maxRetries - 1 then ⟨.error (.fetch url e maxRetries), 1, []⟩
      else
        let rest := retryGo url oracle maxRetries (attempt + 1) fuel
        ⟨rest.result, rest.attempts + 1, RETRY_DELAY :: rest.sleeps⟩

/-- Embedding of `get_with_retries(url, max_retries)`. -/
def get_with_retries (url : String) (oracle : Nat → AttemptOutcome)
    (maxRetries : Nat) : RetryResult :=
  retryGo url oracle maxRetries 0 maxRetries

/-! ### Link extractor (`scrape_boletines`) -/

/-- An anchor element of the parsed page; `href = none` stands for an anchor
without an href attribute, which `find_all("a", href=True)` skips. -/
structure Anchor where
  href : Option String
deriving DecidableEq, Repr

/-- The link-extraction loop of `scrape_boletines`: every href ending in
".pdf" is resolved against the base URL and appended, in document order. -/
def extractPdfLinks (base : String) (anchors : List Anchor) : List String :=
  anchors.foldl (fun acc a =>
    match a.href with
    | none => acc
    | some href =>
      if strEndsWith href ".pdf" then acc ++ [urljoin base href] else acc) []

/-- Embedding of `scrape_boletines()`: the source page fetch outcome is the
oracle value `page`; any exception is wrapped into a SATMonitorError. -/
def scrape_boletines (page : Except String (List Anchor)) :
    Except PipelineError (List String) :=
  match page with
  | .error e => .error (.scrape e)
  | .ok anchors => .ok (extractPdfLinks SAT_URL anchors)

/-! ### Text extractor (`extract_text_from_pdf`) -/

/-- A PDF document as the extractor observes it: `none` when the document
cannot be opened or parsed at all; otherwise the list of pages, each giving
`none` when `page.extract_text()` raises, or the extracted string. -/
abbrev PdfDoc := Option (List (Option String))

/-- Embedding of `extract_text_from_pdf`: pages whose extraction raises are
skipped, empty page texts are dropped by the `if page_text` check, the rest
are joined with single spaces; an unopenable document yields "". -/
def extract_text_from_pdf (doc : PdfDoc) : String :=
  match doc with
  | none => ""
  | some pages =>
    let text_parts := pages.foldl (fun acc p =>
      match p with
      | none => acc
      | some t => if t ≠ "" then acc ++ [t] else acc) []
    String.intercalate " " text_parts

/-! ### Keyword matcher (the loop at lines 178-181 of the source) -/

/-- The keyword-matching loop: keywords whose lowercased form occurs in the
lowercased text, collected in keyword-list order. -/
def findKeywords (keywords : List String) (text : String) : List String :=
  keywords.foldl (fun acc k =>
    if strContainsSub (pyLower text) (pyLower k) then acc ++ [k] else acc) []

/-! ### Dedup store (`file_already_processed`, `mark_as_processed`) -/

/-- Outcome of `head_object` on a key: success, a botocore ClientError with
an error code, or a non-ClientError exception. -/
inductive HeadOutcome where
  | found
  | clientError (code : String)
  | otherError (msg : String)
deriving DecidableEq, Repr

/-- The dedup marker key for a URL: `processed/{md5(url)}.txt`. -/
def dedupKey (url : String) : String :=
  "processed/" ++ md5HexStr url ++ ".txt"

/-- Embedding of `file_already_processed`: true on a successful head, false
exactly on ClientError code "404", re-raises any other ClientError, and a
non-ClientError exception propagates as well. -/
def file_already_processed (head : String → HeadOutcome) (url : String) :
    Except PipelineError Bool :=
  match head (dedupKey url) with
  | .found => .ok true
  | .clientError code =>
    if code = "404" then .ok false else .error (.clientError code)
  | .otherError m => .error (.other m)

/-! ### Orchestrator (`analyze_pdfs`)

The world oracle fixes, per URL, the net outcome of the document fetch,
whether the temp-file write succeeds, how the bytes parse as a PDF, and
whether the archive upload and the dedup mark succeed. The run state traces
dedup checks, document fetches, live temp files, written store keys and
sent emails. -/

/-- Behaviour of the outside world for one link. -/
structure LinkBehaviour where
  fetch : Except String (List Nat)
  writeOk : Bool
  doc : PdfDoc
  uploadOk : Bool
  markOk : Bool

/-- The full oracle for one run. -/
structure World where
  envOk : Bool
  page : Except String (List Anchor)
  head : String → HeadOutcome
  link : String → LinkBehaviour
  smtpOk : Bool
  date : String
  timestamp : String

/-- A MatchResult dict appended by `analyze_pdfs`. -/
structure Update where
  pdf : String
  keywords : List String
  url : String
  processed_at : String
deriving DecidableEq, Repr

/-- Observable effects of a run. -/
structure RunState where
  processedKeys : List String
  archivedKeys : List String
  tempLive : Nat
  dedupChecks : List String
  fetchedUrls : List String
  emailsSent : Nat
deriving DecidableEq, Repr

/-- The state before any effect. -/
def initState : RunState := ⟨[], [], 0, [], [], 0⟩

/-- Store view for `head_object` during a run: keys written by
`mark_as_processed` earlier in the run exist, the rest answer as in the
initial store. -/
def headFn (w : World) (st : RunState) : String → HeadOutcome :=
  fun key => if key ∈ st.processedKeys then .found else w.head key

/-- Embedding of `mark_as_processed`: writes the marker key; a put failure
is caught inside the function and only logged. -/
def mark_as_processed (w : World) (st : RunState) (url : String) : RunState :=
  if (w.link url).markOk then
    { st with processedKeys := st.processedKeys ++ [dedupKey url] }
  else st

/-- Display filename of a link:
`os.path.basename(urlparse(url).path) or "documento.pdf"`. -/
def pdfNameOf (url : String) : String :=
  let b := basename (urlPath url)
  if b = "" then "documento.pdf" else b

/-- One iteration of the loop in `analyze_pdfs`, following the source
control flow: dedup check, fetch, temp-file creation and write, the
try/finally around extraction, matching, upload and mark, and the per-link
exception handler that turns any raise into a continue. -/
def processLink (w : World) (acc : List Update × RunState) (url : String) :
    List Update × RunState :=
  let updates := acc.1
  let st0 := acc.2
  let st1 := { st0 with dedupChecks := st0.dedupChecks ++ [url] }
  match file_already_processed (headFn w st0) url with
  | .error _ => (updates, st1)
  | .ok true => (updates, st1)
  | .ok false =>
    let st2 := { st1 with fetchedUrls := st1.fetchedUrls ++ [url] }
    match (w.link url).fetch with
    | .error _ => (updates, st2)
    | .ok _content =>
      let pdf_name := pdfNameOf url
      let st3 := { st2 with tempLive := st2.tempLive + 1 }
      if (w.link url).writeOk = false then
        (updates, st3)
      else
        let text := extract_text_from_pdf ((w.link url).doc)
        if text = "" then
          (updates, { st3 with tempLive := st3.tempLive - 1 })
        else
          let found := findKeywords KEYWORDS text
          let updates1 := if found.isEmpty then updates
            else updates ++ [⟨pdf_name, found, url, w.timestamp⟩]
          if (w.link url).uploadOk = false then
            (updates1, { st3 with tempLive := st3.tempLive - 1 })
          else
            let st4 := { st3 with archivedKeys :=
              st3.archivedKeys ++ ["boletines/" ++ w.date ++ "/" ++ pdf_name] }
            let st5 := mark_as_processed w st4 url
            (updates1, { st5 with tempLive := st5.tempLive - 1 })

/-- Embedding of `analyze_pdfs(pdf_links)`: the per-run cap takes the first
10 links, then the loop above runs over them from the initial state. -/
def analyze_pdfs (w : World) (pdf_links : List String) :
    List Update × RunState :=
  (pdf_links.take 10).foldl (processLink w) ([], initState)

/-! ### Notifier (`send_email`) and handler (`lambda_handler`) -/

/-- Embedding of `send_email(updates)`: nothing happens on an empty list;
otherwise the value records that one email was sent, and an SMTP failure is
wrapped into a SATMonitorError. -/
def send_email (smtpOk : Bool) (updates : List Update) :
    Except PipelineError Bool :=
  if updates.isEmpty then .ok false
  else if smtpOk then .ok true
  else .error (.notification "Error al enviar email")

/-- The body of the handler result. -/
structure LambdaBody where
  status : String
  updates_found : Option Nat
  pdfs_analyzed : Option Nat
  message : Option String
deriving DecidableEq, Repr

/-- The handler result. -/
structure LambdaResult where
  statusCode : Nat
  body : LambdaBody
deriving DecidableEq, Repr

/-- Message string reported for an error reaching the top of the handler:
a SATMonitorError reports its own text, anything else the generic text. -/
def handlerMessage : PipelineError → String
  | .fetch url e n =>
    "Error al descargar " ++ url ++ " tras " ++ toString n ++ " intentos: " ++ e
  | .scrape m => "Error al extraer boletines: " ++ m
  | .config vars => "Variables de entorno faltantes: " ++ String.intercalate ", " vars
  | .notification m => m
  | .clientError _ => "Error interno del servidor"
  | .other _ => "Error interno del servidor"

/-- The 500 result built by the exception handlers of `lambda_handler`. -/
def errorResult (e : PipelineError) : LambdaResult :=
  ⟨500, ⟨"error", none, none, some (handlerMessage e)⟩⟩

/-- Embedding of `lambda_handler`: validation, scrape, analysis, email, and
the 200 and 500 result shapes, returned together with the run effects. -/
def lambda_handler (w : World) : LambdaResult × RunState :=
  if w.envOk = false then
    (errorResult (.config ["S3_BUCKET"]), initState)
  else
    match scrape_boletines w.page with
    | .error e => (errorResult e, initState)
    | .ok pdf_links =>
      let a := analyze_pdfs w pdf_links
      match send_email w.smtpOk a.1 with
      | .error e => (errorResult e, a.2)
      | .ok sent =>
        (⟨200, ⟨"success", some a.1.length, some pdf_links.length, none⟩⟩,
         { a.2 with emailsSent := a.2.emailsSent + (if sent then 1 else 0) })

/-! ### Spec-side characterizations

These definitions follow the words of the specification (sections 4.2, 4.3
and 4.5); the refinement theorems below compare them with the source
embeddings. -/

/-- Spec 4.2: the hrefs ending literally in ".pdf" of anchors that have an
href, resolved against the base URL, in document order, not deduplicated. -/
def extractPdfLinksSpec (base : String) (anchors : List Anchor) : List String :=
  ((anchors.filterMap Anchor.href).filter (fun h => strEndsWith h ".pdf")).map
    (urljoin base)

/-- Spec 4.5: the subset of the keywords whose lowercased form is contained
in the lowercased text, in configured order. -/
def matchKeywordsSpec (keywords : List String) (text : String) : List String :=
  keywords.filter (fun k => strContainsSub (pyLower text) (pyLower k))

/-- Spec 4.3: the successfully extracted non-empty page texts concatenated
with a single space separator. -/
def extractTextSpec (pages : List (Option String)) : String :=
  String.intercalate " "
    (pages.filterMap (fun p =>
      match p with
      | none => none
      | some t => if t = "" then none else some t))

/-! ### Concrete worlds and oracles used by the witnesses -/

/-- Attempt oracle on which every attempt fails. -/
def oracleAllFail : Nat → AttemptOutcome := fun _ => .failure "connection timeout"

/-- Attempt oracle failing twice, then succeeding on the third attempt. -/
def oracleThird : Nat → AttemptOutcome :=
  fun i => if i < 2 then .failure "reset" else .success [37]

/-- Link behaviour on which everything succeeds and the document contains
the first and fourth configured keywords. -/
def linkHappy : LinkBehaviour :=
  ⟨.ok [37, 80], true, some [some "aviso CFDI 4.0", none, some "", some "y e.firma"],
   true, true⟩

/-- World where every link is new, downloads, extracts and matches. -/
def worldHappy : World :=
  ⟨true,
   .ok [⟨some "a.pdf"⟩, ⟨some "b.PDF"⟩, ⟨none⟩, ⟨some "/boletin/x.pdf"⟩],
   fun _ => .clientError "404",
   fun _ => linkHappy,
   true, "20261012", "2026-10-12T00:00:00"⟩

/-- World identical to `worldHappy` except that SMTP delivery fails. -/
def worldSmtpDown : World :=
  ⟨true,
   .ok [⟨some "a.pdf"⟩, ⟨some "b.PDF"⟩, ⟨none⟩, ⟨some "/boletin/x.pdf"⟩],
   fun _ => .clientError "404",
   fun _ => linkHappy,
   false, "20261012", "2026-10-12T00:00:00"⟩

/-- World whose page holds 25 pdf links while every link is already marked
processed in the store. -/
def worldAllSeen : World :=
  ⟨true,
   .ok (List.replicate 25 ⟨some "doc.pdf"⟩),
   fun _ => .found,
   fun _ => linkHappy,
   true, "20261012", "2026-10-12T00:00:00"⟩

/-- World with one new link whose temp-file write raises (for instance the
disk filling up while the downloaded bytes are written). -/
def worldWriteFails : World :=
  ⟨true,
   .ok [⟨some "a.pdf"⟩],
   fun _ => .clientError "404",
   fun _ => ⟨.ok [37, 80], false, some [some "aviso CFDI 4.0"], true, true⟩,
   true, "20261012", "2026-10-12T00:00:00"⟩

/-! ## Theorems -/

/-! ### Retry loop lemmas (claim C7) -/

theorem retryGo_shape (url : String) (o : Nat → AttemptOutcome) (m : Nat) :
    ∀ fuel attempt, attempt + fuel = m →
      (retryGo url o m attempt fuel).attempts ≤ fuel ∧
      (0 < fuel → 1 ≤ (retryGo url o m attempt fuel).attempts) ∧
      (retryGo url o m attempt fuel).sleeps =
        List.replicate ((retryGo url o m attempt fuel).attempts - 1) RETRY_DELAY := by
  intro fuel
  induction fuel with
  | zero => intro attempt _; simp [retryGo]
  | succ fuel ih =>
    intro attempt hinv
    simp only [retryGo]
    cases ho : o attempt with
    | success r => simp
    | failure e =>
      by_cases ha : attempt = m - 1
      · simp [ha]
      · have hf : 0 < fuel := by omega
        obtain ⟨h1, h2, h3⟩ := ih (attempt + 1) (by omega)
        have h4 := h2 hf
        simp only [if_neg ha]
        refine ⟨by omega, fun _ => by omega, ?_⟩
        have he : (retryGo url o m (attempt + 1) fuel).attempts + 1 - 1 =
            ((retryGo url o m (attempt + 1) fuel).attempts - 1) + 1 := by omega
        rw [h3, he, List.replicate_succ]

theorem retryGo_allFail (url : String) (o : Nat → AttemptOutcome) (m : Nat)
    (errf : Nat → String) (hfail : ∀ i, i < m → o i = .failure (errf i)) :
    ∀ fuel attempt, attempt + fuel = m → 0 < fuel →
      retryGo url o m attempt fuel =
        ⟨.error (.fetch url (errf (m - 1)) m), fuel,
          List.replicate (fuel - 1) RETRY_DELAY⟩ := by
  intro fuel
  induction fuel with
  | zero => intro attempt _ h0; omega
  | succ fuel ih =>
    intro attempt hinv _
    have ho : o attempt = .failure (errf attempt) := hfail attempt (by omega)
    simp only [retryGo, ho]
    by_cases ha : attempt = m - 1
    · have hf0 : fuel = 0 := by omega
      subst hf0
      simp [ha]
    · have hf : 0 < fuel := by omega
      rw [if_neg ha, ih (attempt + 1) (by omega) hf]
      have he : fuel + 1 - 1 = (fuel - 1) + 1 := by omega
      rw [he, List.replicate_succ]

theorem retryGo_firstSuccess (url : String) (o : Nat → AttemptOutcome) (m i : Nat)
    (r : List Nat) (hi : i < m) (hpre : ∀ j, j < i → ∃ e, o j = .failure e)
    (hs : o i = .success r) :
    ∀ fuel attempt, attempt + fuel = m → attempt ≤ i →
      retryGo url o m attempt fuel =
        ⟨.ok (some r), i + 1 - attempt, List.replicate (i - attempt) RETRY_DELAY⟩ := by
  intro fuel
  induction fuel with
  | zero => intro attempt hinv hle; omega
  | succ fuel ih =>
    intro attempt hinv hle
    by_cases hai : attempt = i
    · subst hai
      simp [retryGo, hs]
    · have hlt : attempt < i := by omega
      obtain ⟨e, he⟩ := hpre attempt hlt
      have ha : attempt ≠ m - 1 := by omega
      simp only [retryGo, he]
      rw [if_neg ha, ih (attempt + 1) (by omega) (by omega)]
      dsimp only
      rw [RetryResult.mk.injEq]
      refine ⟨rfl, by omega, ?_⟩
      have h2 : i - attempt = (i - (attempt + 1)) + 1 := by omega
      rw [h2, List.replicate_succ]

/-- C7: for every URL the fetcher makes at most maxRetries attempts with a
constant delay between consecutive attempts; when every attempt fails with
a transport error, it raises a wrapped error carrying the final attempt
error and the attempt count; otherwise it returns the response of the
first successful attempt after exactly that many attempts. -/
theorem claim_C7 :
    (∀ url o m, (get_with_retries url o m).attempts ≤ m ∧
      (get_with_retries url o m).sleeps =
        List.replicate ((get_with_retries url o m).attempts - 1) RETRY_DELAY) ∧
    (∀ (url : String) (o : Nat → AttemptOutcome) (m : Nat) (errf : Nat → String),
      0 < m →
      (∀ i, i < m → o i = AttemptOutcome.failure (errf i)) →
      get_with_retries url o m =
        ⟨.error (.fetch url (errf (m - 1)) m), m,
          List.replicate (m - 1) RETRY_DELAY⟩) ∧
    (∀ url o m i r, i < m →
      (∀ j, j < i → ∃ e, o j = AttemptOutcome.failure e) →
      o i = AttemptOutcome.success r →
      get_with_retries url o m =
        ⟨.ok (some r), i + 1, List.replicate i RETRY_DELAY⟩) := by
  refine ⟨fun url o m => ?_, fun url o m errf hm hfail => ?_,
    fun url o m i r hi hpre hs => ?_⟩
  · obtain ⟨h1, _, h3⟩ := retryGo_shape url o m m 0 (by omega)
    exact ⟨h1, h3⟩
  · exact retryGo_allFail url o m errf hfail m 0 (by omega) hm
  · have := retryGo_firstSuccess url o m i r hi hpre hs m 0 (by omega) (by omega)
    simpa using this

/-- Witness for C7 at maxRetries 3: a run where all three attempts fail and
a run succeeding on the third attempt. -/
theorem claim_C7_witness :
    get_with_retries "http://sat.example/p.pdf" oracleAllFail 3 =
      ⟨.error (.fetch "http://sat.example/p.pdf" "connection timeout" 3), 3,
        List.replicate 2 RETRY_DELAY⟩ ∧
    get_with_retries "http://sat.example/p.pdf" oracleThird 3 =
      ⟨.ok (some [37]), 3, List.replicate 2 RETRY_DELAY⟩ := by
  constructor
  · exact claim_C7.2.1 _ oracleAllFail 3 (fun _ => "connection timeout")
      (by decide) (fun i _ => rfl)
  · exact claim_C7.2.2 _ oracleThird 3 2 [37] (by decide)
      (fun j hj => ⟨"reset", by simp [oracleThird, hj]⟩) rfl

/-! ### Link extractor (claim C4) -/

theorem extractPdfLinks_foldl (base : String) (anchors : List Anchor)
    (acc : List String) :
    anchors.foldl (fun acc a =>
      match a.href with
      | none => acc
      | some href =>
        if strEndsWith href ".pdf" then acc ++ [urljoin base href] else acc) acc
    = acc ++ extractPdfLinksSpec base anchors := by
  induction anchors generalizing acc with
  | nil => simp [extractPdfLinksSpec]
  | cons a t ih =>
    cases ha : a.href with
    | none =>
      simp only [List.foldl_cons, ha]
      rw [ih]
      simp [extractPdfLinksSpec, List.filterMap_cons, ha]
    | some href =>
      simp only [List.foldl_cons, ha]
      by_cases hp : strEndsWith href ".pdf"
      · simp only [hp, if_true]
        rw [ih]
        simp [extractPdfLinksSpec, List.filterMap_cons, ha, hp, List.filter_cons,
          List.append_assoc]
      · simp only [hp, if_false]
        rw [ih]
        simp [extractPdfLinksSpec, List.filterMap_cons, ha, hp, List.filter_cons]

/-- C4: link extraction returns exactly the hrefs of anchors having an href
ending literally in ".pdf", resolved against the base URL, in document
order, without deduplication; concrete conjuncts check the root-relative
and relative resolutions, the case-sensitive exclusion of ".PDF", and that
a repeated link appears twice. -/
theorem claim_C4 :
    (∀ base anchors, extractPdfLinks base anchors = extractPdfLinksSpec base anchors) ∧
    (∀ anchors, scrape_boletines (.ok anchors) = .ok (extractPdfLinks SAT_URL anchors)) ∧
    extractPdfLinks "http://sat.example/a/b"
      [⟨some "/boletin/x.pdf"⟩, ⟨some "doc.pdf"⟩, ⟨some "up.PDF"⟩, ⟨none⟩,
        ⟨some "doc.pdf"⟩] =
      ["http://sat.example/boletin/x.pdf", "http://sat.example/a/doc.pdf",
        "http://sat.example/a/doc.pdf"] ∧
    extractPdfLinks SAT_URL [⟨some "x.pdf"⟩, ⟨some "http://other.example/z.pdf"⟩] =
      ["http://omawww.sat.gob.mx/sala_prensa/boletin_tecnico/Paginas/x.pdf",
        "http://other.example/z.pdf"] := by
  refine ⟨fun base anchors => ?_, fun anchors => rfl, by decide, by decide⟩
  simpa using extractPdfLinks_foldl base anchors []

/-! ### Keyword matcher (claim C5) -/

theorem findKeywords_foldl (keywords : List String) (text : String)
    (acc : List String) :
    keywords.foldl (fun acc k =>
      if strContainsSub (pyLower text) (pyLower k) then acc ++ [k] else acc) acc
    = acc ++ matchKeywordsSpec keywords text := by
  induction keywords generalizing acc with
  | nil => simp [matchKeywordsSpec]
  | cons k t ih =>
    simp only [List.foldl_cons]
    by_cases hp : strContainsSub (pyLower text) (pyLower k)
    · simp only [hp, if_true]
      rw [ih]
      simp [matchKeywordsSpec, List.filter_cons, hp, List.append_assoc]
    · simp only [hp, if_false]
      rw [ih]
      simp [matchKeywordsSpec, List.filter_cons, hp]

theorem findKeywords_eq_spec (keywords : List String) (text : String) :
    findKeywords keywords text = matchKeywordsSpec keywords text := by
  simpa using findKeywords_foldl keywords text []

theorem processLink_updates_mem (w : World) (acc : List Update × RunState)
    (url : String) (u : Update) (hu : u ∈ (processLink w acc url).1) :
    u ∈ acc.1 ∨ u.keywords ≠ [] := by
  revert hu
  simp only [processLink]
  split
  · exact fun hu => .inl hu
  · exact fun hu => .inl hu
  · split
    · exact fun hu => .inl hu
    · split
      · exact fun hu => .inl hu
      · split
        · exact fun hu => .inl hu
        · split <;> split
          · exact fun hu => .inl hu
          · rename_i hni
            intro hu
            rcases List.mem_append.mp hu with h | h
            · exact .inl h
            · right
              have hx : u = ⟨pdfNameOf url, findKeywords KEYWORDS
                  (extract_text_from_pdf ((w.link url).doc)), url, w.timestamp⟩ := by
                simpa using h
              subst hx
              simpa using hni
          · exact fun hu => .inl hu
          · rename_i hni
            intro hu
            rcases List.mem_append.mp hu with h | h
            · exact .inl h
            · right
              have hx : u = ⟨pdfNameOf url, findKeywords KEYWORDS
                  (extract_text_from_pdf ((w.link url).doc)), url, w.timestamp⟩ := by
                simpa using h
              subst hx
              simpa using hni

theorem foldl_updates_mem (w : World) (l : List String)
    (acc : List Update × RunState) (u : Update)
    (hu : u ∈ (l.foldl (processLink w) acc).1) : u ∈ acc.1 ∨ u.keywords ≠ [] := by
  induction l generalizing acc with
  | nil => exact .inl hu
  | cons x t ih =>
    rcases ih (processLink w acc x) (by simpa using hu) with h | h
    · exact processLink_updates_mem w acc x u h
    · exact .inr h

/-- C5: keyword matching returns exactly the keywords whose lowercased form
is a substring of the lowercased text, in configured order (a sublist of
the keyword list), without duplicates when the configuration has none, and
a MatchResult enters the update list only with a non-empty keyword list. -/
theorem claim_C5 :
    (∀ keywords text, findKeywords keywords text = matchKeywordsSpec keywords text) ∧
    (∀ keywords text, (findKeywords keywords text).Sublist keywords) ∧
    (∀ keywords text, keywords.Nodup → (findKeywords keywords text).Nodup) ∧
    (∀ keywords text, findKeywords keywords text = [] ↔
      ∀ k ∈ keywords, strContainsSub (pyLower text) (pyLower k) = false) ∧
    (∀ w links u, u ∈ (analyze_pdfs w links).1 → u.keywords ≠ []) := by
  refine ⟨findKeywords_eq_spec, fun keywords text => ?_, fun keywords text h => ?_,
    fun keywords text => ?_, fun w links u hu => ?_⟩
  · rw [findKeywords_eq_spec]
    exact List.filter_sublist keywords
  · rw [findKeywords_eq_spec]
    exact h.filter _
  · rw [findKeywords_eq_spec]
    unfold matchKeywordsSpec
    rw [List.filter_eq_nil_iff]
    constructor
    · intro h k hk
      have := h k hk
      simpa using this
    · intro h k hk
      simp [h k hk]
  · rcases foldl_updates_mem w (links.take 10) ([], initState) u hu with h | h
    · simp at h
    · exact h

/-- Witness for C5: the configured keywords on a lowercase text containing
two of them, and the update list of a happy-path run. -/
theorem claim_C5_witness :
    (KEYWORDS.Nodup → (findKeywords KEYWORDS "aviso cfdi 4.0 y e.firma").Nodup) ∧
    (findKeywords KEYWORDS "nada que ver" = [] ↔
      ∀ k ∈ KEYWORDS, strContainsSub (pyLower "nada que ver") (pyLower k) = false) ∧
    (⟨"a.pdf", ["CFDI 4.0", "e.firma"], "u", "T"⟩ ∈
        (analyze_pdfs worldHappy (extractPdfLinks SAT_URL
          [⟨some "a.pdf"⟩, ⟨some "b.PDF"⟩, ⟨none⟩, ⟨some "/boletin/x.pdf"⟩])).1 →
      (⟨"a.pdf", ["CFDI 4.0", "e.firma"], "u", "T"⟩ : Update).keywords ≠ []) :=
  ⟨claim_C5.2.2.1 KEYWORDS "aviso cfdi 4.0 y e.firma",
   claim_C5.2.2.2.1 KEYWORDS "nada que ver",
   claim_C5.2.2.2.2 worldHappy _ _⟩

/-! ### Text extractor (claim C6) -/

theorem extractParts_foldl (pages : List (Option String)) (acc : List String) :
    pages.foldl (fun acc p =>
      match p with
      | none => acc
      | some t => if t ≠ "" then acc ++ [t] else acc) acc
    = acc ++ pages.filterMap (fun p =>
        match p with
        | none => none
        | some t => if t = "" then none else some t) := by
  induction pages generalizing acc with
  | nil => simp
  | cons p t ih =>
    cases p with
    | none =>
      simp only [List.foldl_cons]
      rw [ih]
      simp [List.filterMap_cons]
    | some s =>
      by_cases hs : s = ""
      · subst hs
        simp only [List.foldl_cons]
        rw [ih]
        simp [List.filterMap_cons]
      · simp only [List.foldl_cons, if_pos hs, if_neg hs]
        rw [ih]
        simp [List.filterMap_cons, hs, List.append_assoc]

/-- C6: text extraction is total by construction; an unopenable document
yields the empty string, a page whose extraction raises is skipped while
the remaining pages are still processed, and the successfully extracted
non-empty page texts are concatenated with single spaces (the spec-side
characterization `extractTextSpec`). -/
theorem claim_C6 :
    extract_text_from_pdf none = "" ∧
    (∀ pages, extract_text_from_pdf (some pages) = extractTextSpec pages) ∧
    (∀ p1 p2, extract_text_from_pdf (some (p1 ++ [none] ++ p2)) =
      extract_text_from_pdf (some (p1 ++ p2))) ∧
    extract_text_from_pdf (some [some "uno", none, some "", some "dos"]) =
      "uno dos" := by
  have hspec : ∀ pages, extract_text_from_pdf (some pages) = extractTextSpec pages := by
    intro pages
    show String.intercalate " " _ = _
    rw [extractParts_foldl pages []]
    simp [extractTextSpec]
  refine ⟨rfl, hspec, fun p1 p2 => ?_, by decide⟩
  rw [hspec, hspec]
  unfold extractTextSpec
  simp [List.filterMap_append]

/-! ### Dedup store (claim C8) -/

/-- C8: the existence check asks the store exactly at the key
`processed/{md5(url)}.txt`; a successful head means true, ClientError 404
means false, any other ClientError and any non-ClientError store failure
propagate as errors. -/
theorem claim_C8 :
    (∀ head url, file_already_processed head url = .ok true ↔
      head (dedupKey url) = .found) ∧
    (∀ head url, file_already_processed head url = .ok false ↔
      head (dedupKey url) = .clientError "404") ∧
    (∀ head url code, code ≠ "404" → head (dedupKey url) = .clientError code →
      file_already_processed head url = .error (.clientError code)) ∧
    (∀ head url msg, head (dedupKey url) = .otherError msg →
      file_already_processed head url = .error (.other msg)) ∧
    (∀ url, dedupKey url = "processed/" ++ md5HexStr url ++ ".txt") := by
  refine ⟨fun head url => ?_, fun head url => ?_, fun head url code hc hh => ?_,
    fun head url msg hh => ?_, fun url => rfl⟩
  · unfold file_already_processed
    cases hh : head (dedupKey url) with
    | found => simp
    | clientError code =>
      by_cases hc : code = "404" <;> simp [hc]
    | otherError m => simp
  · unfold file_already_processed
    cases hh : head (dedupKey url) with
    | found => simp
    | clientError code =>
      by_cases hc : code = "404" <;> simp [hc]
    | otherError m => simp
  · unfold file_already_processed
    rw [hh]
    simp [hc]
  · unfold file_already_processed
    rw [hh]

/-- Witness for C8 on concrete stores: a marker present at the fingerprint
key, the not-found store, a propagating 500 error, a propagating credential
failure, and the literal MD5 fingerprint key of a concrete URL. -/
theorem claim_C8_witness :
    file_already_processed (fun _ => .found) "http://x/a.pdf" = .ok true ∧
    file_already_processed (fun _ => .clientError "404") "http://x/a.pdf" = .ok false ∧
    file_already_processed (fun _ => .clientError "500") "http://x/a.pdf" =
      .error (.clientError "500") ∧
    file_already_processed (fun _ => .otherError "NoCredentialsError") "http://x/a.pdf" =
      .error (.other "NoCredentialsError") ∧
    dedupKey "http://x/a.pdf" =
      "processed/4741ecc95b697a32b49bca9176b3aafc.txt" :=
  ⟨(claim_C8.1 (fun _ => .found) "http://x/a.pdf").mpr rfl,
   (claim_C8.2.1 (fun _ => .clientError "404") "http://x/a.pdf").mpr rfl,
   claim_C8.2.2.1 (fun _ => .clientError "500") "http://x/a.pdf" "500" (by decide) rfl,
   claim_C8.2.2.2.1 (fun _ => .otherError "NoCredentialsError") "http://x/a.pdf"
     "NoCredentialsError" rfl,
   by decide⟩

/-! ### Orchestrator lemmas (claims C1, C2, C3, C9, C10) -/

theorem processLink_state (w : World) (acc : List Update × RunState) (url : String) :
    (processLink w acc url).2.dedupChecks = acc.2.dedupChecks ++ [url] ∧
    ((processLink w acc url).2.fetchedUrls = acc.2.fetchedUrls ∨
      (processLink w acc url).2.fetchedUrls = acc.2.fetchedUrls ++ [url]) ∧
    ((processLink w acc url).2.processedKeys = acc.2.processedKeys ∨
      (processLink w acc url).2.processedKeys =
        acc.2.processedKeys ++ [dedupKey url]) ∧
    ((processLink w acc url).2.archivedKeys = acc.2.archivedKeys ∨
      (processLink w acc url).2.archivedKeys =
        acc.2.archivedKeys ++ ["boletines/" ++ w.date ++ "/" ++ pdfNameOf url]) ∧
    (processLink w acc url).2.emailsSent = acc.2.emailsSent := by
  simp only [processLink, mark_as_processed]
  repeat' split
  all_goals simp

theorem processLink_skip (w : World) (acc : List Update × RunState) (url : String)
    (hf : w.head (dedupKey url) = .found) :
    processLink w acc url =
      (acc.1, { acc.2 with dedupChecks := acc.2.dedupChecks ++ [url] }) := by
  have hok : file_already_processed (headFn w acc.2) url = .ok true := by
    unfold file_already_processed headFn
    by_cases h : dedupKey url ∈ acc.2.processedKeys
    · simp [h]
    · simp [h, hf]
  simp only [processLink, hok]

theorem processLink_tempLive (w : World) (acc : List Update × RunState)
    (url : String) (hw : (w.link url).writeOk = true) :
    (processLink w acc url).2.tempLive = acc.2.tempLive := by
  simp only [processLink, mark_as_processed]
  repeat' split
  all_goals simp_all

theorem foldl_skip_all (w : World) (l : List String)
    (hf : ∀ url ∈ l, w.head (dedupKey url) = .found) :
    ∀ acc, l.foldl (processLink w) acc =
      (acc.1, { acc.2 with dedupChecks := acc.2.dedupChecks ++ l }) := by
  induction l with
  | nil => intro acc; simp
  | cons x t ih =>
    intro acc
    rw [List.foldl_cons, processLink_skip w acc x (hf x (by simp)),
      ih (fun url hu => hf url (by simp [hu]))]
    simp

theorem analyze_pdfs_all_seen (w : World) (links : List String)
    (hf : ∀ url ∈ links, w.head (dedupKey url) = .found) :
    analyze_pdfs w links = ([], { initState with dedupChecks := links.take 10 }) := by
  unfold analyze_pdfs
  rw [foldl_skip_all w (links.take 10)
    (fun url hu => hf url (List.take_subset _ _ hu)) ([], initState)]
  simp [initState]

/-- C2: a run over links that are all already marked processed fetches no
document, produces no match, sends no email and returns the 200 success
outcome with updates_found 0. -/
theorem claim_C2 (w : World) (anchors : List Anchor)
    (henv : w.envOk = true) (hpage : w.page = .ok anchors)
    (hf : ∀ url ∈ extractPdfLinks SAT_URL anchors, w.head (dedupKey url) = .found) :
    (lambda_handler w).1 = ⟨200, ⟨"success", some 0,
      some (extractPdfLinks SAT_URL anchors).length, none⟩⟩ ∧
    (lambda_handler w).2.fetchedUrls = [] ∧
    (lambda_handler w).2.emailsSent = 0 ∧
    (analyze_pdfs w (extractPdfLinks SAT_URL anchors)).1 = [] := by
  have ha := analyze_pdfs_all_seen w (extractPdfLinks SAT_URL anchors) hf
  unfold lambda_handler
  rw [henv, hpage]
  simp only [scrape_boletines, ha, send_email, initState]
  simp

/-- Witness for C2: the 25-link page whose links are all in the store. -/
theorem claim_C2_witness :
    (lambda_handler worldAllSeen).1 = ⟨200, ⟨"success", some 0,
      some (extractPdfLinks SAT_URL (List.replicate 25 ⟨some "doc.pdf"⟩)).length,
      none⟩⟩ ∧
    (lambda_handler worldAllSeen).2.fetchedUrls = [] ∧
    (lambda_handler worldAllSeen).2.emailsSent = 0 ∧
    (analyze_pdfs worldAllSeen
      (extractPdfLinks SAT_URL (List.replicate 25 ⟨some "doc.pdf"⟩))).1 = [] :=
  claim_C2 worldAllSeen (List.replicate 25 ⟨some "doc.pdf"⟩) rfl rfl
    (fun _ _ => rfl)

theorem foldl_state_trace (w : World) (l : List String) :
    ∀ acc, ((l.foldl (processLink w) acc).2.dedupChecks = acc.2.dedupChecks ++ l) ∧
    (∀ u, u ∈ (l.foldl (processLink w) acc).2.fetchedUrls →
      u ∈ acc.2.fetchedUrls ∨ u ∈ l) ∧
    (∀ k, k ∈ (l.foldl (processLink w) acc).2.processedKeys →
      k ∈ acc.2.processedKeys ∨ ∃ url ∈ l, k = dedupKey url) ∧
    (∀ k, k ∈ (l.foldl (processLink w) acc).2.archivedKeys →
      k ∈ acc.2.archivedKeys ∨
        ∃ url ∈ l, k = "boletines/" ++ w.date ++ "/" ++ pdfNameOf url) := by
  induction l with
  | nil => intro acc; simp
  | cons x t ih =>
    intro acc
    obtain ⟨h1, h2, h3, h4⟩ := ih (processLink w acc x)
    obtain ⟨s1, s2, s3, s4, _⟩ := processLink_state w acc x
    rw [List.foldl_cons] at *
    refine ⟨?_, ?_, ?_, ?_⟩
    · rw [h1, s1]
      simp
    · intro u hu
      rcases h2 u hu with h | h
      · rcases s2 with s | s
        · rw [s] at h
          exact .inl h
        · rw [s] at h
          rcases List.mem_append.mp h with h | h
          · exact .inl h
          · simp at h
            simp [h]
      · simp [h]
    · intro k hk
      rcases h3 k hk with h | h
      · rcases s3 with s | s
        · rw [s] at h
          exact .inl h
        · rw [s] at h
          rcases List.mem_append.mp h with h | h
          · exact .inl h
          · simp at h
            exact .inr ⟨x, by simp, h⟩
      · obtain ⟨url, hm, he⟩ := h
        exact .inr ⟨url, by simp [hm], he⟩
    · intro k hk
      rcases h4 k hk with h | h
      · rcases s4 with s | s
        · rw [s] at h
          exact .inl h
        · rw [s] at h
          rcases List.mem_append.mp h with h | h
          · exact .inl h
          · simp at h
            exact .inr ⟨x, by simp, h⟩
      · obtain ⟨url, hm, he⟩ := h
        exact .inr ⟨url, by simp [hm], he⟩

theorem analyze_dedupChecks (w : World) (links : List String) :
    (analyze_pdfs w links).2.dedupChecks = links.take 10 := by
  have := (foldl_state_trace w (links.take 10) ([], initState)).1
  unfold analyze_pdfs
  rw [this]
  simp [initState]

/-- C3: a run touches at most the first 10 links in discovery order: the
whole run equals the run over the 10-link prefix, the dedup store is
consulted exactly for that prefix, and every fetched URL, every dedup
marker written and every archived object comes from a link of that
prefix. -/
theorem claim_C3 (w : World) (links : List String) :
    analyze_pdfs w links = analyze_pdfs w (links.take 10) ∧
    (analyze_pdfs w links).2.dedupChecks = links.take 10 ∧
    (∀ u, u ∈ (analyze_pdfs w links).2.fetchedUrls → u ∈ links.take 10) ∧
    (∀ k, k ∈ (analyze_pdfs w links).2.processedKeys →
      ∃ url ∈ links.take 10, k = dedupKey url) ∧
    (∀ k, k ∈ (analyze_pdfs w links).2.archivedKeys →
      ∃ url ∈ links.take 10, k = "boletines/" ++ w.date ++ "/" ++ pdfNameOf url) := by
  obtain ⟨h1, h2, h3, h4⟩ := foldl_state_trace w (links.take 10) ([], initState)
  refine ⟨?_, analyze_dedupChecks w links, fun u hu => ?_, fun k hk => ?_,
    fun k hk => ?_⟩
  · unfold analyze_pdfs
    rw [List.take_take]
    norm_num
  · rcases h2 u hu with h | h
    · simp [initState] at h
    · exact h
  · rcases h3 k hk with h | h
    · simp [initState] at h
    · exact h
  · rcases h4 k hk with h | h
    · simp [initState] at h
    · exact h

/-- Witness for C3 on a 12-link discovery with the happy-path world: the
run equals the capped run, the dedup trace is the 10-link prefix, and the
fetched-URL and marker-key implications are exercised on the first link. -/
theorem claim_C3_witness :
    analyze_pdfs worldHappy
        ["http://h/a1.pdf", "http://h/a2.pdf", "http://h/a3.pdf", "http://h/a4.pdf",
         "http://h/a5.pdf", "http://h/a6.pdf", "http://h/a7.pdf", "http://h/a8.pdf",
         "http://h/a9.pdf", "http://h/a10.pdf", "http://h/a11.pdf", "http://h/a12.pdf"] =
      analyze_pdfs worldHappy
        (["http://h/a1.pdf", "http://h/a2.pdf", "http://h/a3.pdf", "http://h/a4.pdf",
          "http://h/a5.pdf", "http://h/a6.pdf", "http://h/a7.pdf", "http://h/a8.pdf",
          "http://h/a9.pdf", "http://h/a10.pdf", "http://h/a11.pdf",
          "http://h/a12.pdf"].take 10) ∧
    "http://h/a1.pdf" ∈
      (["http://h/a1.pdf", "http://h/a2.pdf", "http://h/a3.pdf", "http://h/a4.pdf",
        "http://h/a5.pdf", "http://h/a6.pdf", "http://h/a7.pdf", "http://h/a8.pdf",
        "http://h/a9.pdf", "http://h/a10.pdf", "http://h/a11.pdf",
        "http://h/a12.pdf"].take 10) := by
  constructor
  · exact (claim_C3 worldHappy _).1
  · exact (claim_C3 worldHappy
      ["http://h/a1.pdf", "http://h/a2.pdf", "http://h/a3.pdf", "http://h/a4.pdf",
       "http://h/a5.pdf", "http://h/a6.pdf", "http://h/a7.pdf", "http://h/a8.pdf",
       "http://h/a9.pdf", "http://h/a10.pdf", "http://h/a11.pdf",
       "http://h/a12.pdf"]).2.2.1 "http://h/a1.pdf" (by decide)

theorem analyze_emailsSent (w : World) (links : List String) :
    (analyze_pdfs w links).2.emailsSent = 0 := by
  unfold analyze_pdfs
  have h : ∀ (l : List String) acc,
      (l.foldl (processLink w) acc).2.emailsSent = acc.2.emailsSent := by
    intro l
    induction l with
    | nil => intro acc; rfl
    | cons x t ih =>
      intro acc
      rw [List.foldl_cons, ih, (processLink_state w acc x).2.2.2.2]
  rw [h]
  rfl

/-- C10: a successful run reports in pdfs_analyzed the count of all
discovered links, not the count of processed ones: the dedup trace length
is capped at 10 while pdfs_analyzed carries the full discovery length. -/
theorem claim_C10 (w : World) (anchors : List Anchor)
    (henv : w.envOk = true) (hpage : w.page = .ok anchors)
    (hok : (analyze_pdfs w (extractPdfLinks SAT_URL anchors)).1 = [] ∨
      w.smtpOk = true) :
    (lambda_handler w).1.statusCode = 200 ∧
    (lambda_handler w).1.body.pdfs_analyzed =
      some (extractPdfLinks SAT_URL anchors).length ∧
    (lambda_handler w).2.dedupChecks.length =
      min 10 (extractPdfLinks SAT_URL anchors).length := by
  have hsend : ∃ sent, send_email w.smtpOk
      (analyze_pdfs w (extractPdfLinks SAT_URL anchors)).1 = .ok sent := by
    rcases hok with h | h
    · exact ⟨false, by simp [send_email, h]⟩
    · unfold send_email
      by_cases he : (analyze_pdfs w (extractPdfLinks SAT_URL anchors)).1.isEmpty
      · exact ⟨false, by simp [he]⟩
      · exact ⟨true, by simp [he, h]⟩
  obtain ⟨sent, hsend⟩ := hsend
  unfold lambda_handler
  rw [henv, hpage]
  simp only [scrape_boletines, hsend]
  refine ⟨by simp, by simp, ?_⟩
  show ((analyze_pdfs w (extractPdfLinks SAT_URL anchors)).2.dedupChecks).length = _
  rw [analyze_dedupChecks]
  exact List.length_take 10 _

/-- Witness for C10: the world with 25 discovered links that are all
already processed reports pdfs_analyzed 25 while only 10 dedup checks
happened. -/
theorem claim_C10_witness :
    (lambda_handler worldAllSeen).1.statusCode = 200 ∧
    (lambda_handler worldAllSeen).1.body.pdfs_analyzed = some 25 ∧
    (lambda_handler worldAllSeen).2.dedupChecks.length = 10 := by
  have h := claim_C10 worldAllSeen (List.replicate 25 ⟨some "doc.pdf"⟩) rfl rfl
    (.inl (by decide))
  refine ⟨h.1, ?_, ?_⟩
  · rw [h.2.1]
    decide
  · rw [h.2.2]
    decide

/-- C9: with an empty match list nothing is sent and the run still returns
200; with a non-empty match list and failing delivery the run returns the
500 error outcome while the state produced by the analysis phase — its
archived documents and dedup markers included — is kept unchanged. -/
theorem claim_C9 (w : World) (anchors : List Anchor)
    (henv : w.envOk = true) (hpage : w.page = .ok anchors) :
    ((analyze_pdfs w (extractPdfLinks SAT_URL anchors)).1 = [] →
      (lambda_handler w).1.statusCode = 200 ∧
      (lambda_handler w).2.emailsSent = 0) ∧
    ((analyze_pdfs w (extractPdfLinks SAT_URL anchors)).1 ≠ [] →
      w.smtpOk = false →
      (lambda_handler w).1.statusCode = 500 ∧
      (lambda_handler w).1.body.status = "error" ∧
      (lambda_handler w).2 =
        (analyze_pdfs w (extractPdfLinks SAT_URL anchors)).2) := by
  constructor
  · intro hemp
    unfold lambda_handler
    rw [henv, hpage]
    simp only [scrape_boletines, hemp, send_email, List.isEmpty_nil, if_true]
    exact ⟨rfl, by simp [analyze_emailsSent]⟩
  · intro hne hsm
    have hie : (analyze_pdfs w (extractPdfLinks SAT_URL anchors)).1.isEmpty = false := by
      simpa [List.isEmpty_iff] using hne
    unfold lambda_handler
    rw [henv, hpage]
    simp only [scrape_boletines, send_email, hie, hsm]
    exact ⟨rfl, rfl, rfl⟩

/-- Witness for C9: the happy-path page with SMTP down ends in the 500
error outcome with the analysis effects intact. -/
theorem claim_C9_witness :
    (lambda_handler worldSmtpDown).1.statusCode = 500 ∧
    (lambda_handler worldSmtpDown).1.body.status = "error" ∧
    (lambda_handler worldSmtpDown).2 =
      (analyze_pdfs worldSmtpDown (extractPdfLinks SAT_URL
        [⟨some "a.pdf"⟩, ⟨some "b.PDF"⟩, ⟨none⟩, ⟨some "/boletin/x.pdf"⟩])).2 :=
  (claim_C9 worldSmtpDown
    [⟨some "a.pdf"⟩, ⟨some "b.PDF"⟩, ⟨none⟩, ⟨some "/boletin/x.pdf"⟩]
    rfl rfl).2 (by decide) rfl

theorem foldl_tempLive (w : World) (l : List String)
    (hw : ∀ url ∈ l, (w.link url).writeOk = true) :
    ∀ acc, (l.foldl (processLink w) acc).2.tempLive = acc.2.tempLive := by
  induction l with
  | nil => intro acc; rfl
  | cons x t ih =>
    intro acc
    rw [List.foldl_cons, ih (fun url hu => hw url (by simp [hu])),
      processLink_tempLive w acc x (hw x (by simp))]

/-- C1: the cleanup invariant is violated on the path where the temp-file
write itself raises: the run on `worldWriteFails` ends successfully with
one temporary file still on disk, because the unlink lives in a finally
block entered only after the write, while the file is created with
delete disabled. On every link whose write succeeds the temp file is
released on all exit paths, as the second conjunct states for the
always-write world. -/
theorem claim_C1 :
    (lambda_handler worldWriteFails).1.statusCode = 200 ∧
    (lambda_handler worldWriteFails).2.tempLive = 1 ∧
    (∀ links, (analyze_pdfs worldHappy links).2.tempLive = 0) := by
  refine ⟨by decide, by decide, fun links => ?_⟩
  unfold analyze_pdfs
  rw [foldl_tempLive worldHappy (links.take 10) (fun _ _ => rfl)]
  rfl

end SatMonitor

